import Mathlib

/-!
Verification of the screen-share signaling server (`src/server.js`).

The server keeps two registries:
  `rooms   : Map roomCode -> { adminId, participants : Set socketId }`
  `sockets : Map socketId -> { ws, roomCode, role }`
and processes WebSocket events single-threadedly.  We embed the registries as
association lists with JavaScript `Map` semantics (`mget`/`mset`/`mdel`),
participant sets as lists with JavaScript `Set` semantics (`setAdd`/`setDel`),
and each handler of `server.js` as a pure function from server state to
server state plus the list of outbound `(socketId, message)` pairs produced
by `sendToSocket`.  A `sendToSocket` to an unregistered id emits nothing,
mirroring the `if (!entry) return;` guard; channel readiness
(`ws.readyState`) is abstracted away.

Inbound payloads are JSON values.  `JSON.parse` (a platform builtin) is
abstracted: message processing takes an `Option Json`, where `none` models a
parse exception (caught by the `try`/`catch` in `handleMessage`) and
`some v` a successful parse of the inbound text.
-/

namespace ScreenShare

/-- JSON values, the payloads carried by signaling messages.  JavaScript
`undefined` (a missing field) is represented by `Option.none` at use sites;
objects produced by `JSON.parse` have pairwise distinct keys. -/
inductive Json where
  | null : Json
  | bool (b : Bool) : Json
  | num (n : Int) : Json
  | str (s : String) : Json
  | arr (elems : List Json) : Json
  | obj (fields : List (String × Json)) : Json

/-- JavaScript truthiness of a JSON value (`!v` in the handlers). -/
def truthy : Json → Bool
  | Json.null => false
  | Json.bool b => b
  | Json.num n => n != 0
  | Json.str s => s != ""
  | Json.arr _ => true
  | Json.obj _ => true

/-- Property access `payload.key` ( `undefined` is `none`).  On non-objects
named properties such as `roomCode` or `viewerId` are `undefined`. -/
def objGet : Json → String → Option Json
  | Json.obj fields, key => fields.lookup key
  | _, _ => none

/-- Rest-spread `const { type, ...rest } = parsed` restricted to the named
fields the handlers read: drops the given key, and yields an empty object for
non-object values. -/
def objDelKey : Json → String → Json
  | Json.obj fields, key => Json.obj (fields.filter (fun kv => kv.1 != key))
  | _, _ => Json.obj []

/-- The `role` field of a socket entry: `"admin"` or `"viewer"`
(`null` is `Option.none` at the entry). -/
inductive Role where
  | admin : Role
  | viewer : Role
deriving DecidableEq, Repr

/-- One entry of the `sockets` map: `{ ws, roomCode, role }` with the channel
object abstracted away.  `roomCode`/`role` are `null` initially. -/
structure SocketEntry where
  roomCode : Option String
  role : Option Role
deriving DecidableEq, Repr

/-- One entry of the `rooms` map: `{ adminId, participants: Set<socketId> }`. -/
structure Room where
  adminId : String
  participants : List String
deriving DecidableEq, Repr

/-- `Map.get` on an association list. -/
def mget {α : Type} : List (String × α) → String → Option α
  | [], _ => none
  | (k, v) :: rest, key => if k = key then some v else mget rest key

/-- `Map.set` on an association list: replace in place, else append. -/
def mset {α : Type} : List (String × α) → String → α → List (String × α)
  | [], key, v => [(key, v)]
  | (k, w) :: rest, key, v =>
      if k = key then (key, v) :: rest else (k, w) :: mset rest key v

/-- `Map.delete` on an association list. -/
def mdel {α : Type} : List (String × α) → String → List (String × α)
  | [], _ => []
  | (k, w) :: rest, key =>
      if k = key then mdel rest key else (k, w) :: mdel rest key

/-- `Set.add`: append if not already a member (JavaScript insertion order). -/
def setAdd (s : List String) (x : String) : List String :=
  if x ∈ s then s else s ++ [x]

/-- `Set.delete`. -/
def setDel (s : List String) (x : String) : List String :=
  s.filter (fun y => y != x)

/-- The two global registries of `server.js`. -/
structure ServerState where
  rooms : List (String × Room)
  sockets : List (String × SocketEntry)
deriving DecidableEq, Repr

/-- The state before any connection: both registries empty. -/
def initialState : ServerState := { rooms := [], sockets := [] }

/-- Messages the server writes to a client channel (`safeSend` payloads),
tagged by their `type` field. -/
inductive OutMsg where
  | socket_id (socketId : String) : OutMsg
  | room_created (roomCode : String) : OutMsg
  | room_joined (roomCode : String) : OutMsg
  | room_error (message : String) : OutMsg
  | viewer_joined (viewerId : String) : OutMsg
  | receive_offer (offer : Json) (adminId : String) : OutMsg
  | receive_answer (viewerId : String) (answer : Json) : OutMsg
  | ice_candidate (candidate : Json) (src : String) : OutMsg
  | room_closed : OutMsg

/-- `sendToSocket` against a bare sockets map: no-op when the id is
unregistered, otherwise one outbound message to that id. -/
def sendToSockets (sockets : List (String × SocketEntry)) (socketId : String)
    (m : OutMsg) : List (String × OutMsg) :=
  match mget sockets socketId with
  | none => []
  | some _ => [(socketId, m)]

/-- `sendToSocket(socketId, type, payload)` of `server.js`. -/
def sendToSocket (st : ServerState) (socketId : String) (m : OutMsg) :
    List (String × OutMsg) :=
  sendToSockets st.sockets socketId m

/-- Send to a caller-supplied target that is an arbitrary JSON value: map
keys are strings, so a non-string target never matches an entry. -/
def sendToTarget (st : ServerState) (target : Json) (m : OutMsg) :
    List (String × OutMsg) :=
  match target with
  | Json.str s => sendToSocket st s m
  | _ => []

/-- The `wss.on("connection", ...)` handler: register the fresh socket id
with null role/room and send `socket_id` on the new channel. -/
def connectSocket (st : ServerState) (socketId : String) :
    ServerState × List (String × OutMsg) :=
  ({ st with sockets := mset st.sockets socketId { roomCode := none, role := none } },
   [(socketId, OutMsg.socket_id socketId)])

/-- `handleCreateRoom(socketId)` of `server.js`; the freshly generated
`shortRoomCode()` is passed in as `newCode`. -/
def handleCreateRoom (st : ServerState) (socketId : String) (newCode : String) :
    ServerState × List (String × OutMsg) :=
  match mget st.sockets socketId with
  | none => (st, [])
  | some _ =>
    let st' : ServerState :=
      { rooms := mset st.rooms newCode { adminId := socketId, participants := [] },
        sockets := mset st.sockets socketId
          { roomCode := some newCode, role := some Role.admin } }
    (st', sendToSocket st' socketId (OutMsg.room_created newCode))

/-- JavaScript `String.prototype.trim`: strip whitespace from both ends. -/
def jsTrim (s : String) : String :=
  String.mk (((s.data.dropWhile Char.isWhitespace).reverse.dropWhile Char.isWhitespace).reverse)

/-- JavaScript `String.prototype.toUpperCase`, characterwise on the ASCII
strings this protocol handles. -/
def jsToUpper (s : String) : String :=
  String.mk (s.data.map Char.toUpper)

/-- `(payload?.roomCode || "").trim().toUpperCase()` of `handleJoinRoom`.
A truthy non-string `roomCode` has no `.trim` method: the expression raises
an uncaught `TypeError`, modelled as `Except.error`. -/
def normRoomCode (payload : Json) : Except Unit String :=
  match objGet payload "roomCode" with
  | none => Except.ok ""
  | some v =>
    if truthy v then
      match v with
      | Json.str s => Except.ok (jsToUpper (jsTrim s))
      | _ => Except.error ()
    else Except.ok ""

/-- `handleJoinRoom(socketId, payload)` of `server.js`. -/
def handleJoinRoom (st : ServerState) (socketId : String) (payload : Json) :
    Except Unit (ServerState × List (String × OutMsg)) :=
  match mget st.sockets socketId with
  | none => Except.ok (st, [])
  | some _ =>
    match normRoomCode payload with
    | Except.error e => Except.error e
    | Except.ok requestedCode =>
      if requestedCode = "" then
        Except.ok (st, sendToSocket st socketId (OutMsg.room_error "Room does not exist"))
      else
        match mget st.rooms requestedCode with
        | none =>
          Except.ok (st, sendToSocket st socketId (OutMsg.room_error "Room does not exist"))
        | some room =>
          let st' : ServerState :=
            { rooms := mset st.rooms requestedCode
                { adminId := room.adminId, participants := setAdd room.participants socketId },
              sockets := mset st.sockets socketId
                { roomCode := some requestedCode, role := some Role.viewer } }
          Except.ok (st',
            sendToSocket st' socketId (OutMsg.room_joined requestedCode) ++
            sendToSocket st' room.adminId (OutMsg.viewer_joined socketId))

/-- `handleOffer(socketId, payload)` of `server.js`: gated on the sender
being a registered admin, both payload fields truthy, the sender's room
existing, and `viewerId` being a participant of it. -/
def handleOffer (st : ServerState) (socketId : String) (payload : Json) :
    ServerState × List (String × OutMsg) :=
  match mget st.sockets socketId with
  | none => (st, [])
  | some entry =>
    if entry.role ≠ some Role.admin then (st, [])
    else
      let viewerId := (objGet payload "viewerId").getD Json.null
      let offer := (objGet payload "offer").getD Json.null
      if !truthy viewerId || !truthy offer then (st, [])
      else
        match entry.roomCode with
        | none => (st, [])
        | some rc =>
          match mget st.rooms rc with
          | none => (st, [])
          | some room =>
            match viewerId with
            | Json.str vid =>
              if vid ∈ room.participants then
                (st, sendToSocket st vid (OutMsg.receive_offer offer socketId))
              else (st, [])
            | _ => (st, [])

/-- `handleAnswer(socketId, payload)` of `server.js`: no role or membership
check, only the truthiness guard on the two payload fields. -/
def handleAnswer (st : ServerState) (socketId : String) (payload : Json) :
    ServerState × List (String × OutMsg) :=
  let adminId := (objGet payload "adminId").getD Json.null
  let answer := (objGet payload "answer").getD Json.null
  if !truthy adminId || !truthy answer then (st, [])
  else (st, sendToTarget st adminId (OutMsg.receive_answer socketId answer))

/-- `handleIceCandidate(socketId, payload)` of `server.js`: no role or
membership check, only the truthiness guard on the two payload fields. -/
def handleIceCandidate (st : ServerState) (socketId : String) (payload : Json) :
    ServerState × List (String × OutMsg) :=
  let target := (objGet payload "target").getD Json.null
  let candidate := (objGet payload "candidate").getD Json.null
  if !truthy target || !truthy candidate then (st, [])
  else (st, sendToTarget st target (OutMsg.ice_candidate candidate socketId))

/-- The loop body of `room.participants.forEach` in the admin branch of
`cleanupSocket`: send `room_closed` to each participant and null out its
`roomCode`/`role` fields, threading the evolving sockets map. -/
def closeParticipants (sockets : List (String × SocketEntry)) :
    List String → List (String × SocketEntry) × List (String × OutMsg)
  | [] => (sockets, [])
  | p :: rest =>
    let ms := sendToSockets sockets p OutMsg.room_closed
    let sockets' :=
      match mget sockets p with
      | none => sockets
      | some _ => mset sockets p { roomCode := none, role := none }
    let r := closeParticipants sockets' rest
    (r.1, ms ++ r.2)

/-- `cleanupSocket(socketId)` of `server.js`, invoked on channel close or
error.  Note `if (roomCode && rooms.has(roomCode))`: an empty-string room
code is falsy in JavaScript, hence skipped. -/
def cleanupSocket (st : ServerState) (socketId : String) :
    ServerState × List (String × OutMsg) :=
  match mget st.sockets socketId with
  | none => (st, [])
  | some entry =>
    match entry.roomCode with
    | none => ({ st with sockets := mdel st.sockets socketId }, [])
    | some rc =>
      if rc = "" then ({ st with sockets := mdel st.sockets socketId }, [])
      else
        match mget st.rooms rc with
        | none => ({ st with sockets := mdel st.sockets socketId }, [])
        | some room =>
          if room.adminId = socketId then
            let cp := closeParticipants st.sockets room.participants
            ({ rooms := mdel st.rooms rc, sockets := mdel cp.1 socketId }, cp.2)
          else
            ({ rooms := mset st.rooms rc
                 { adminId := room.adminId, participants := setDel room.participants socketId },
               sockets := mdel st.sockets socketId }, [])

/-- `handleMessage(socketId, data)` of `server.js`.  `parsed` is the outcome
of `JSON.parse(data)`: `none` when the parse threw (caught, silent drop).
When the parse yields `null` (input string `"null"`), the destructuring
`const { type, ...rest } = parsed` throws a `TypeError` outside the
`try`/`catch`, modelled as `Except.error`.  `freshCode` is the room code
`shortRoomCode()` would generate for a `create_room` dispatch. -/
def handleMessage (st : ServerState) (socketId : String) (parsed : Option Json)
    (freshCode : String) : Except Unit (ServerState × List (String × OutMsg)) :=
  match parsed with
  | none => Except.ok (st, [])
  | some Json.null => Except.error ()
  | some j =>
    let rest := objDelKey j "type"
    match objGet j "type" with
    | some (Json.str "create_room") => Except.ok (handleCreateRoom st socketId freshCode)
    | some (Json.str "join_room") => handleJoinRoom st socketId rest
    | some (Json.str "send_offer") => Except.ok (handleOffer st socketId rest)
    | some (Json.str "send_answer") => Except.ok (handleAnswer st socketId rest)
    | some (Json.str "ice_candidate") => Except.ok (handleIceCandidate st socketId rest)
    | _ => Except.ok (st, [])

/-- The sixteen lowercase hexadecimal digits. -/
def hexLowerChars : List Char := "0123456789abcdef".data

/-- The sixteen uppercase hexadecimal digits. -/
def hexUpperChars : List Char := "0123456789ABCDEF".data

/-- `shortRoomCode()` of `server.js` as a function of the drawn UUID string:
`uuid().split("-")[0].toUpperCase()`.  The first group of a single-character
split is the maximal dash-free leading segment; `toUpperCase` acts
characterwise on the ASCII strings involved. -/
def shortRoomCode (u : String) : String :=
  String.mk ((u.data.takeWhile (fun c => c != '-')).map Char.toUpper)

/-- Modelled from the spec: the room code is drawn "from a short random
token space" by taking the first dash-separated group of a freshly generated
UUID.  The `uuid`/`crypto.randomUUID` generators (external dependencies, not
in `src/`) produce canonical UUID strings: five dash-separated groups of
lowercase hexadecimal digits with sizes 8-4-4-4-12.  Only the shape of the
first group and its terminating dash matter here. -/
def isCanonicalUuid (u : String) : Prop :=
  ∃ g1 rest, u.data = g1 ++ '-' :: rest ∧ g1.length = 8 ∧ ∀ c ∈ g1, c ∈ hexLowerChars

/-- The keys of an association-list map. -/
def mkeys {α : Type} (m : List (String × α)) : List String := m.map Prod.fst

/-- Key uniqueness of a map, as maintained by building it from `[]` with
`mset`/`mdel` (mirroring `Map` key uniqueness). -/
def keysNodup {α : Type} (m : List (String × α)) : Prop := (mkeys m).Nodup

theorem mget_mset {α : Type} (m : List (String × α)) (k k' : String) (v : α) :
    mget (mset m k v) k' = if k = k' then some v else mget m k' := by
  induction m with
  | nil => simp [mset, mget]
  | cons kv rest ih =>
    obtain ⟨k0, w⟩ := kv
    by_cases h0 : k0 = k
    · subst h0
      by_cases h1 : k0 = k' <;> simp [mset, mget, h1]
    · by_cases h1 : k0 = k'
      · subst h1
        have hk : ¬ k = k0 := fun h => h0 h.symm
        simp [mset, mget, h0, hk]
      · simp [mset, mget, h0, h1, ih]

theorem mget_mset_self {α : Type} (m : List (String × α)) (k : String) (v : α) :
    mget (mset m k v) k = some v := by
  simp [mget_mset]

theorem mget_mset_ne {α : Type} (m : List (String × α)) (k k' : String) (v : α)
    (h : k ≠ k') : mget (mset m k v) k' = mget m k' := by
  simp [mget_mset, h]

theorem mget_mdel {α : Type} (m : List (String × α)) (k k' : String) :
    mget (mdel m k) k' = if k = k' then none else mget m k' := by
  induction m with
  | nil => simp [mdel, mget]
  | cons kv rest ih =>
    obtain ⟨k0, w⟩ := kv
    by_cases h0 : k0 = k
    · subst h0
      by_cases h1 : k0 = k'
      · subst h1
        simp [mdel, mget, ih]
      · simp [mdel, mget, h1, ih]
    · by_cases h1 : k0 = k'
      · subst h1
        have hk : ¬ k = k0 := fun h => h0 h.symm
        simp [mdel, mget, h0, hk]
      · simp [mdel, mget, h0, h1, ih]

theorem mget_mdel_self {α : Type} (m : List (String × α)) (k : String) :
    mget (mdel m k) k = none := by
  simp [mget_mdel]

theorem mget_mdel_ne {α : Type} (m : List (String × α)) (k k' : String)
    (h : k ≠ k') : mget (mdel m k) k' = mget m k' := by
  simp [mget_mdel, h]

theorem mem_mkeys_mset {α : Type} (m : List (String × α)) (k a : String) (v : α) :
    a ∈ mkeys (mset m k v) ↔ a ∈ mkeys m ∨ a = k := by
  induction m with
  | nil => simp [mset, mkeys]
  | cons kv rest ih =>
    obtain ⟨k0, w⟩ := kv
    by_cases h0 : k0 = k
    · subst h0
      simp [mset, mkeys]
      tauto
    · simp only [mkeys, List.map_cons, List.mem_cons] at ih ⊢
      simp only [mset, if_neg h0, List.map_cons, List.mem_cons]
      rw [ih]
      tauto

theorem keysNodup_mset {α : Type} (m : List (String × α)) (k : String) (v : α)
    (h : keysNodup m) : keysNodup (mset m k v) := by
  induction m with
  | nil => simp [mset, keysNodup, mkeys]
  | cons kv rest ih =>
    obtain ⟨k0, w⟩ := kv
    simp only [keysNodup, mkeys, List.map_cons, List.nodup_cons] at h
    by_cases h0 : k0 = k
    · subst h0
      have hms : mset ((k0, w) :: rest) k0 v = (k0, v) :: rest := by simp [mset]
      rw [hms]
      simpa [keysNodup, mkeys, List.nodup_cons] using h
    · have ht : keysNodup (mset rest k v) := ih h.2
      simp only [mset, if_neg h0, keysNodup, mkeys, List.map_cons, List.nodup_cons]
      refine ⟨fun hmem => ?_, ht⟩
      rcases (mem_mkeys_mset rest k k0 v).mp hmem with hin | heq
      · exact h.1 hin
      · exact h0 heq

theorem mdel_sublist {α : Type} (m : List (String × α)) (k : String) :
    (mdel m k).Sublist m := by
  induction m with
  | nil => simp [mdel]
  | cons kv rest ih =>
    obtain ⟨k0, w⟩ := kv
    by_cases h0 : k0 = k
    · simpa [mdel, h0] using ih.trans (List.sublist_cons_self _ _)
    · simpa [mdel, h0] using ih.cons₂ (k0, w)

theorem keysNodup_mdel {α : Type} (m : List (String × α)) (k : String)
    (h : keysNodup m) : keysNodup (mdel m k) := by
  exact List.Nodup.sublist (List.Sublist.map Prod.fst (mdel_sublist m k)) h

theorem sendToSockets_registered (sockets : List (String × SocketEntry))
    (socketId : String) (e : SocketEntry) (m : OutMsg)
    (h : mget sockets socketId = some e) :
    sendToSockets sockets socketId m = [(socketId, m)] := by
  simp [sendToSockets, h]

theorem sendToSockets_unregistered (sockets : List (String × SocketEntry))
    (socketId : String) (m : OutMsg)
    (h : mget sockets socketId = none) :
    sendToSockets sockets socketId m = [] := by
  simp [sendToSockets, h]

theorem closeParticipants_get (sockets : List (String × SocketEntry))
    (ps : List String) (q : String) :
    mget (closeParticipants sockets ps).1 q =
      if q ∈ ps then
        (mget sockets q).map (fun _ => { roomCode := none, role := none })
      else mget sockets q := by
  induction ps generalizing sockets with
  | nil => simp [closeParticipants]
  | cons p rest ih =>
    simp only [closeParticipants]
    by_cases hq : q = p
    · subst hq
      by_cases hmem : q ∈ rest
      · rw [ih]
        simp only [hmem, if_true, List.mem_cons, true_or, if_true]
        cases h : mget sockets q <;> simp [h, mget_mset_self]
      · rw [ih]
        simp only [hmem, if_false, List.mem_cons, true_or, if_true]
        cases h : mget sockets q <;> simp [h, mget_mset_self]
    · have hne : p ≠ q := fun h => hq h.symm
      rw [ih]
      by_cases hmem : q ∈ rest
      · simp only [hmem, if_true, List.mem_cons, hq, false_or, if_true]
        cases h : mget sockets p <;> simp [h, mget_mset_ne _ _ _ _ hne]
      · simp only [hmem, if_false, List.mem_cons, hq, false_or]
        cases h : mget sockets p <;> simp [h, mget_mset_ne _ _ _ _ hne]

theorem closeParticipants_msgs (sockets : List (String × SocketEntry))
    (ps : List String)
    (h : ∀ p ∈ ps, (mget sockets p).isSome = true) :
    (closeParticipants sockets ps).2 =
      ps.map (fun p => (p, OutMsg.room_closed)) := by
  induction ps generalizing sockets with
  | nil => simp [closeParticipants]
  | cons p rest ih =>
    have hp := h p (by simp)
    obtain ⟨e, he⟩ := Option.isSome_iff_exists.mp hp
    simp only [closeParticipants, he, sendToSockets_registered _ _ _ _ he]
    rw [ih]
    · simp
    · intro q hq
      by_cases hqp : p = q
      · subst hqp; simp [mget_mset_self]
      · rw [mget_mset_ne _ _ _ _ hqp]
        exact h q (by simp [hq])

theorem cleanupSocket_unregistered (st : ServerState) (socketId : String)
    (h : mget st.sockets socketId = none) :
    cleanupSocket st socketId = (st, []) := by
  simp [cleanupSocket, h]

theorem mem_setAdd (s : List String) (x q : String) :
    q ∈ setAdd s x ↔ q ∈ s ∨ q = x := by
  unfold setAdd
  by_cases hmem : x ∈ s
  · rw [if_pos hmem]
    constructor
    · exact Or.inl
    · rintro (h | rfl)
      · exact h
      · exact hmem
  · rw [if_neg hmem]
    simp

theorem mem_of_mem_setDel (s : List String) (x q : String)
    (h : q ∈ setDel s x) : q ∈ s :=
  List.mem_of_mem_filter h

theorem handleOffer_fst (st : ServerState) (sid : String) (p : Json) :
    (handleOffer st sid p).1 = st := by
  unfold handleOffer
  repeat' first
    | rfl
    | split
    | dsimp only

theorem handleAnswer_fst (st : ServerState) (sid : String) (p : Json) :
    (handleAnswer st sid p).1 = st := by
  unfold handleAnswer
  dsimp only
  split <;> rfl

theorem handleIceCandidate_fst (st : ServerState) (sid : String) (p : Json) :
    (handleIceCandidate st sid p).1 = st := by
  unfold handleIceCandidate
  dsimp only
  split <;> rfl

theorem handleJoinRoom_ok_state (st : ServerState) (sid : String) (p : Json)
    (st' : ServerState) (ms : List (String × OutMsg))
    (h : handleJoinRoom st sid p = Except.ok (st', ms)) :
    st' = st ∨
    ∃ code room, code ≠ "" ∧ mget st.rooms code = some room ∧
      st' = { rooms := mset st.rooms code
                { adminId := room.adminId, participants := setAdd room.participants sid },
              sockets := mset st.sockets sid
                { roomCode := some code, role := some Role.viewer } } := by
  unfold handleJoinRoom at h
  rcases hsock : mget st.sockets sid with _ | entry
  · rw [hsock] at h
    left
    injection h with h2
    simp only [Prod.mk.injEq] at h2
    exact h2.1.symm
  · rw [hsock] at h
    dsimp only at h
    rcases hnorm : normRoomCode p with e0 | code0
    · rw [hnorm] at h
      exact absurd h (by simp)
    · rw [hnorm] at h
      dsimp only at h
      by_cases hce : code0 = ""
      · rw [if_pos hce] at h
        left
        injection h with h2
        simp only [Prod.mk.injEq] at h2
        exact h2.1.symm
      · rw [if_neg hce] at h
        rcases hroom : mget st.rooms code0 with _ | room
        · rw [hroom] at h
          left
          injection h with h2
          simp only [Prod.mk.injEq] at h2
          exact h2.1.symm
        · rw [hroom] at h
          dsimp only at h
          right
          injection h with h2
          simp only [Prod.mk.injEq] at h2
          exact ⟨code0, room, hce, hroom, h2.1.symm⟩

/-- The states reachable from the empty registries by any sequence of
connect, signaling-message, and disconnect events.  `create` takes the
generated room code as a parameter (the generator is random); `join` is
conditioned on the handler returning normally. -/
inductive Reachable : ServerState → Prop where
  | init : Reachable initialState
  | connect (st : ServerState) (sid : String) :
      Reachable st → Reachable (connectSocket st sid).1
  | create (st : ServerState) (sid code : String) :
      Reachable st → Reachable (handleCreateRoom st sid code).1
  | join (st st' : ServerState) (sid : String) (p : Json)
      (ms : List (String × OutMsg)) :
      Reachable st → handleJoinRoom st sid p = Except.ok (st', ms) →
      Reachable st'
  | offer (st : ServerState) (sid : String) (p : Json) :
      Reachable st → Reachable (handleOffer st sid p).1
  | answer (st : ServerState) (sid : String) (p : Json) :
      Reachable st → Reachable (handleAnswer st sid p).1
  | ice (st : ServerState) (sid : String) (p : Json) :
      Reachable st → Reachable (handleIceCandidate st sid p).1
  | disconnect (st : ServerState) (sid : String) :
      Reachable st → Reachable (cleanupSocket st sid).1

/-- The invariant exactly as the spec claims it: every participant of every
existing room is a currently registered connection whose role is viewer and
whose room field refers back to that same room. -/
def roomInvariantClaimed (st : ServerState) : Prop :=
  ∀ code room, mget st.rooms code = some room →
    ∀ p, p ∈ room.participants →
      ∃ e, mget st.sockets p = some e ∧ e.role = some Role.viewer ∧
        e.roomCode = some code

/-- The invariant that actually holds: any participant of an existing room
that is currently registered and whose room field still refers to that room
has role viewer.  (Participants may be stale: a viewer that moved to another
room, or disconnected, stays in the old participant set.) -/
def roomInvariantHolds (st : ServerState) : Prop :=
  ∀ code room, mget st.rooms code = some room →
    ∀ p, p ∈ room.participants →
      ∀ e, mget st.sockets p = some e → e.roomCode = some code →
        e.role = some Role.viewer

/-- Key uniqueness of the room registry together with the participant
consistency that survives. -/
def goodState (st : ServerState) : Prop :=
  keysNodup st.rooms ∧ roomInvariantHolds st

theorem goodState_connect (st : ServerState) (sid : String)
    (h : goodState st) : goodState (connectSocket st sid).1 := by
  obtain ⟨hn, hi⟩ := h
  refine ⟨hn, ?_⟩
  intro code room hroom q hq e he hrc
  simp only [connectSocket] at hroom he
  by_cases hqs : sid = q
  · subst hqs
    rw [mget_mset_self] at he
    injection he with he2
    subst he2
    simp at hrc
  · rw [mget_mset_ne _ _ _ _ hqs] at he
    exact hi code room hroom q hq e he hrc

theorem goodState_create (st : ServerState) (sid code : String)
    (h : goodState st) : goodState (handleCreateRoom st sid code).1 := by
  obtain ⟨hn, hi⟩ := h
  unfold handleCreateRoom
  split
  · exact ⟨hn, hi⟩
  · show goodState
      { rooms := mset st.rooms code { adminId := sid, participants := [] },
        sockets := mset st.sockets sid
          { roomCode := some code, role := some Role.admin } }
    refine ⟨keysNodup_mset _ _ _ hn, ?_⟩
    intro code' room' hroom q hq e he hrc
    simp only at hroom he
    rw [mget_mset] at hroom
    by_cases hcc : code = code'
    · rw [if_pos hcc] at hroom
      injection hroom with hr
      subst hr
      simp at hq
    · rw [if_neg hcc] at hroom
      by_cases hqs : sid = q
      · subst hqs
        rw [mget_mset_self] at he
        injection he with he2
        subst he2
        injection hrc with hrc2
        exact absurd hrc2 hcc
      · rw [mget_mset_ne _ _ _ _ hqs] at he
        exact hi code' room' hroom q hq e he hrc

theorem goodState_join (st st' : ServerState) (sid : String) (p : Json)
    (ms : List (String × OutMsg))
    (h : handleJoinRoom st sid p = Except.ok (st', ms))
    (hg : goodState st) : goodState st' := by
  obtain ⟨hn, hi⟩ := hg
  rcases handleJoinRoom_ok_state st sid p st' ms h with rfl | ⟨code, room, hcne, hroom, rfl⟩
  · exact ⟨hn, hi⟩
  · refine ⟨keysNodup_mset _ _ _ hn, ?_⟩
    intro code' room' hroom' q hq e he hrc
    simp only at hroom' he
    rw [mget_mset] at hroom'
    by_cases hcc : code = code'
    · subst hcc
      rw [if_pos rfl] at hroom'
      injection hroom' with hr
      subst hr
      by_cases hqs : sid = q
      · subst hqs
        rw [mget_mset_self] at he
        injection he with he2
        subst he2
        rfl
      · rw [mget_mset_ne _ _ _ _ hqs] at he
        simp only at hq
        rcases (mem_setAdd room.participants sid q).mp hq with hq' | hq'
        · exact hi code room hroom q hq' e he hrc
        · exact absurd hq'.symm hqs
    · rw [if_neg hcc] at hroom'
      by_cases hqs : sid = q
      · subst hqs
        rw [mget_mset_self] at he
        injection he with he2
        subst he2
        injection hrc with hrc2
        exact absurd hrc2 hcc
      · rw [mget_mset_ne _ _ _ _ hqs] at he
        exact hi code' room' hroom' q hq e he hrc

theorem goodState_cleanup (st : ServerState) (sid : String)
    (h : goodState st) : goodState (cleanupSocket st sid).1 := by
  obtain ⟨hn, hi⟩ := h
  have delCase : goodState { st with sockets := mdel st.sockets sid } := by
    refine ⟨hn, ?_⟩
    intro code room hroom q hq e he hrc
    replace hroom : mget st.rooms code = some room := hroom
    replace he : mget (mdel st.sockets sid) q = some e := he
    rw [mget_mdel] at he
    by_cases hqs : sid = q
    · rw [if_pos hqs] at he
      exact absurd he (by simp)
    · rw [if_neg hqs] at he
      exact hi code room hroom q hq e he hrc
  unfold cleanupSocket
  rcases hsock : mget st.sockets sid with _ | entry
  · exact ⟨hn, hi⟩
  · dsimp only
    rcases hrcode : entry.roomCode with _ | rc
    · exact delCase
    · dsimp only
      by_cases hempty : rc = ""
      · rw [if_pos hempty]
        exact delCase
      · rw [if_neg hempty]
        rcases hroom : mget st.rooms rc with _ | room
        · exact delCase
        · dsimp only
          by_cases hadmin : room.adminId = sid
          · rw [if_pos hadmin]
            show goodState
              { rooms := mdel st.rooms rc,
                sockets := mdel (closeParticipants st.sockets room.participants).1 sid }
            refine ⟨keysNodup_mdel _ _ hn, ?_⟩
            intro code' room' hroom' q hq e he hrc'
            replace hroom' : mget (mdel st.rooms rc) code' = some room' := hroom'
            replace he :
                mget (mdel (closeParticipants st.sockets room.participants).1 sid) q
                  = some e := he
            rw [mget_mdel] at hroom' he
            by_cases hcc : rc = code'
            · rw [if_pos hcc] at hroom'
              exact absurd hroom' (by simp)
            · rw [if_neg hcc] at hroom'
              by_cases hqs : sid = q
              · rw [if_pos hqs] at he
                exact absurd he (by simp)
              · rw [if_neg hqs] at he
                rw [closeParticipants_get] at he
                by_cases hqp : q ∈ room.participants
                · rw [if_pos hqp] at he
                  rcases hmg : mget st.sockets q with _ | e0
                  · rw [hmg] at he
                    exact absurd he (by simp)
                  · rw [hmg] at he
                    simp only [Option.map_some'] at he
                    injection he with he2
                    subst he2
                    simp at hrc'
                · rw [if_neg hqp] at he
                  exact hi code' room' hroom' q hq e he hrc'
          · rw [if_neg hadmin]
            show goodState
              { rooms := mset st.rooms rc
                  { adminId := room.adminId, participants := setDel room.participants sid },
                sockets := mdel st.sockets sid }
            refine ⟨keysNodup_mset _ _ _ hn, ?_⟩
            intro code' room' hroom' q hq e he hrc'
            replace hroom' :
                mget (mset st.rooms rc
                  { adminId := room.adminId,
                    participants := setDel room.participants sid }) code'
                  = some room' := hroom'
            replace he : mget (mdel st.sockets sid) q = some e := he
            rw [mget_mset] at hroom'
            rw [mget_mdel] at he
            by_cases hqs : sid = q
            · rw [if_pos hqs] at he
              exact absurd he (by simp)
            · rw [if_neg hqs] at he
              by_cases hcc : rc = code'
              · subst hcc
                rw [if_pos rfl] at hroom'
                injection hroom' with hr
                subst hr
                exact hi rc room hroom q (mem_of_mem_setDel _ _ _ hq) e he hrc'
              · rw [if_neg hcc] at hroom'
                exact hi code' room' hroom' q hq e he hrc'

theorem goodState_initial : goodState initialState := by
  constructor
  · simp [initialState, keysNodup, mkeys]
  · intro code room hroom
    simp [initialState, mget] at hroom

theorem reachable_goodState (st : ServerState) (h : Reachable st) :
    goodState st := by
  induction h with
  | init => exact goodState_initial
  | connect st sid _ ih => exact goodState_connect st sid ih
  | create st sid code _ ih => exact goodState_create st sid code ih
  | join st st' sid p ms _ heq ih => exact goodState_join st st' sid p ms heq ih
  | offer st sid p _ ih =>
      rw [handleOffer_fst]
      exact ih
  | answer st sid p _ ih =>
      rw [handleAnswer_fst]
      exact ih
  | ice st sid p _ ih =>
      rw [handleIceCandidate_fst]
      exact ih
  | disconnect st sid _ ih => exact goodState_cleanup st sid ih

theorem takeWhile_append_stop (p : Char → Bool) (l1 : List Char) (x : Char)
    (l2 : List Char) (h1 : ∀ c ∈ l1, p c = true) (hx : p x = false) :
    (l1 ++ x :: l2).takeWhile p = l1 := by
  induction l1 with
  | nil => simp [List.takeWhile_cons, hx]
  | cons a l ih =>
    have ha := h1 a (by simp)
    simp only [List.cons_append, List.takeWhile_cons, ha, if_true]
    rw [ih (fun c hc => h1 c (by simp [hc]))]

theorem hexUpper_of_hexLower : ∀ c ∈ hexLowerChars, Char.toUpper c ∈ hexUpperChars := by
  decide

/-- C3: the spec says message processing is total and never fatal, but the
inbound text `"null"` parses successfully to JSON `null`, and the
destructuring `const { type, ...rest } = parsed` in `handleMessage` then
throws an uncaught `TypeError` (fatal to the process), in every server
state.  The claim is right about the intent and the code is wrong. -/
theorem handle_message_null_input_crashes (st : ServerState) (sid : String)
    (freshCode : String) :
    handleMessage st sid (some Json.null) freshCode = Except.error () := rfl

/-- C6: `send_answer` and `ice_candidate` always attempt delivery to the
literal target id supplied by the caller (`adminId` resp. `target`), with
no check of the sender's role or of room membership of either party: for
every server state and every sender — registered or not, in any room or
none — the handler's output is exactly one send attempt to the supplied
target id. -/
theorem answer_ice_literal_relay (st : ServerState) (c : String)
    (pa pc : Json) (aid tgt : String) (answer cand : Json)
    (ha : objGet pa "adminId" = some (Json.str aid)) (hane : aid ≠ "")
    (hans : objGet pa "answer" = some answer) (hanst : truthy answer = true)
    (ht : objGet pc "target" = some (Json.str tgt)) (htne : tgt ≠ "")
    (hc : objGet pc "candidate" = some cand) (hct : truthy cand = true) :
    handleAnswer st c pa =
      (st, sendToSocket st aid (OutMsg.receive_answer c answer)) ∧
    handleIceCandidate st c pc =
      (st, sendToSocket st tgt (OutMsg.ice_candidate cand c)) := by
  have haidt : truthy (Json.str aid) = true := by
    show (aid != "") = true
    simpa using hane
  have htgtt : truthy (Json.str tgt) = true := by
    show (tgt != "") = true
    simpa using htne
  constructor
  · unfold handleAnswer
    rw [ha, hans]
    simp [haidt, hanst, sendToTarget]
  · unfold handleIceCandidate
    rw [ht, hc]
    simp [htgtt, hct, sendToTarget]

/-- Witness for C6 at a concrete input: the sender `"V"` is not even a
registered connection, yet its answer and candidate are relayed toward the
literal targets it supplied. -/
theorem answer_ice_literal_relay_witness :
    handleAnswer
        { rooms := [], sockets := [("A", { roomCode := none, role := none })] }
        "V" (Json.obj [("adminId", Json.str "A"), ("answer", Json.str "sdp")]) =
      ({ rooms := [], sockets := [("A", { roomCode := none, role := none })] },
       sendToSocket
         { rooms := [], sockets := [("A", { roomCode := none, role := none })] }
         "A" (OutMsg.receive_answer "V" (Json.str "sdp"))) ∧
    handleIceCandidate
        { rooms := [], sockets := [("A", { roomCode := none, role := none })] }
        "V" (Json.obj [("target", Json.str "A"), ("candidate", Json.str "cnd")]) =
      ({ rooms := [], sockets := [("A", { roomCode := none, role := none })] },
       sendToSocket
         { rooms := [], sockets := [("A", { roomCode := none, role := none })] }
         "A" (OutMsg.ice_candidate (Json.str "cnd") "V")) :=
  answer_ice_literal_relay _ "V" _ _ "A" "A" (Json.str "sdp") (Json.str "cnd")
    rfl (by decide) rfl rfl rfl (by decide) rfl rfl

/-- C9: the seemingly unconditional relays are in fact conditional on the
payload fields: a `send_answer` whose `adminId` or `answer` is missing or
falsy, and an `ice_candidate` whose `target` or `candidate` is missing or
falsy, produce zero outbound messages and change no state.  (A missing
field reads as `undefined`, which is falsy, so both cases are the
truthiness of the read field.) -/
theorem answer_ice_falsy_drop (st : ServerState) (c : String) (pa pc : Json) :
    (truthy ((objGet pa "adminId").getD Json.null) = false ∨
     truthy ((objGet pa "answer").getD Json.null) = false →
       handleAnswer st c pa = (st, [])) ∧
    (truthy ((objGet pc "target").getD Json.null) = false ∨
     truthy ((objGet pc "candidate").getD Json.null) = false →
       handleIceCandidate st c pc = (st, [])) := by
  constructor
  · intro h
    unfold handleAnswer
    rcases h with h | h <;> simp [h]
  · intro h
    unfold handleIceCandidate
    rcases h with h | h <;> simp [h]

/-- Witness for C9 at a concrete input: empty payloads (both fields
missing) produce no message and leave the state unchanged. -/
theorem answer_ice_falsy_drop_witness :
    handleAnswer initialState "V" (Json.obj []) = (initialState, []) ∧
    handleIceCandidate initialState "V" (Json.obj []) = (initialState, []) :=
  ⟨(answer_ice_falsy_drop initialState "V" (Json.obj []) (Json.obj [])).1
      (Or.inl rfl),
   (answer_ice_falsy_drop initialState "V" (Json.obj []) (Json.obj [])).2
      (Or.inl rfl)⟩

/-- C4: a `join_room` whose room code normalizes (trim, upper-case) to the
empty string or to a code with no room sends exactly one
`room_error{message}` to the requester, and neither registry changes: the
returned state is the input state itself. -/
theorem join_room_unknown_code_error (st : ServerState) (c : String)
    (e : SocketEntry) (payload : Json) (code : String)
    (he : mget st.sockets c = some e)
    (hn : normRoomCode payload = Except.ok code)
    (hbad : code = "" ∨ mget st.rooms code = none) :
    handleJoinRoom st c payload =
      Except.ok (st, [(c, OutMsg.room_error "Room does not exist")]) := by
  have hsend : sendToSocket st c (OutMsg.room_error "Room does not exist")
      = [(c, OutMsg.room_error "Room does not exist")] :=
    sendToSockets_registered st.sockets c e _ he
  unfold handleJoinRoom
  rw [he]
  dsimp only
  rw [hn]
  dsimp only
  rcases hbad with hbad | hbad
  · rw [if_pos hbad, hsend]
  · by_cases hce : code = ""
    · rw [if_pos hce, hsend]
    · rw [if_neg hce, hbad]
      dsimp only
      rw [hsend]

/-- Witness for C4: joining the nonexistent room `"ZZZZ"` from the sole
registered connection `"B"` yields one `room_error` and the same state. -/
theorem join_room_unknown_code_error_witness :
    handleJoinRoom
        { rooms := [], sockets := [("B", { roomCode := none, role := none })] }
        "B" (Json.obj [("roomCode", Json.str "ZZZZ")]) =
      Except.ok
        ({ rooms := [], sockets := [("B", { roomCode := none, role := none })] },
         [("B", OutMsg.room_error "Room does not exist")]) :=
  join_room_unknown_code_error _ "B" { roomCode := none, role := none } _ "ZZZZ"
    rfl rfl (Or.inr rfl)

/-- C10: for every canonical UUID the generator can draw, the room code
`uuid().split("-")[0].toUpperCase()` is exactly 8 characters long and
consists only of uppercase hexadecimal digits. -/
theorem short_room_code_hex8 (u : String) (h : isCanonicalUuid u) :
    (shortRoomCode u).length = 8 ∧
    ∀ c ∈ (shortRoomCode u).data, c ∈ hexUpperChars := by
  obtain ⟨g1, rest, hdata, hlen, hhex⟩ := h
  have hdashfree : ∀ c ∈ hexLowerChars, (c != '-') = true := by decide
  have hdash : ∀ c ∈ g1, (c != '-') = true :=
    fun c hc => hdashfree c (hhex c hc)
  have hdataeq : (shortRoomCode u).data = g1.map Char.toUpper := by
    show (u.data.takeWhile (fun c => c != '-')).map Char.toUpper
      = g1.map Char.toUpper
    rw [hdata, takeWhile_append_stop _ _ _ _ hdash (by decide)]
  constructor
  · show (shortRoomCode u).data.length = 8
    rw [hdataeq, List.length_map, hlen]
  · intro c hc
    rw [hdataeq] at hc
    obtain ⟨c0, hc0, rfl⟩ := List.mem_map.mp hc
    exact hexUpper_of_hexLower c0 (hhex c0 hc0)

/-- Witness for C10 on a concrete canonical UUID. -/
theorem short_room_code_hex8_witness :
    (shortRoomCode "9f3b2c1a-1111-2222-3333-444455556666").length = 8 ∧
    ∀ c ∈ (shortRoomCode "9f3b2c1a-1111-2222-3333-444455556666").data,
      c ∈ hexUpperChars :=
  short_room_code_hex8 "9f3b2c1a-1111-2222-3333-444455556666"
    ⟨['9', 'f', '3', 'b', '2', 'c', '1', 'a'],
     ['1', '1', '1', '1', '-', '2', '2', '2', '2', '-', '3', '3', '3', '3',
      '-', '4', '4', '4', '4', '5', '5', '5', '5', '6', '6', '6', '6'],
     by decide, by decide, by decide⟩

/-- C1: for a connection that is the admin of its existing room, cleanup
sends `room_closed` to every participant, nulls every (other) participant's
role and room fields, deletes the room from the registry, and is idempotent:
running cleanup again for the same id is a no-op.  The hypotheses `hne` and
`hreg` record that room codes are nonempty (they are 8 hex characters) and
that the participants are registered connections (so the sends deliver). -/
theorem admin_cleanup_total_idempotent (st : ServerState) (c : String)
    (e : SocketEntry) (rc : String) (room : Room)
    (he : mget st.sockets c = some e) (hrc : e.roomCode = some rc)
    (hne : rc ≠ "") (hroom : mget st.rooms rc = some room)
    (hadmin : room.adminId = c)
    (hreg : ∀ p ∈ room.participants, (mget st.sockets p).isSome = true) :
    (cleanupSocket st c).2
        = room.participants.map (fun p => (p, OutMsg.room_closed)) ∧
    (∀ p ∈ room.participants, p ≠ c →
      mget (cleanupSocket st c).1.sockets p
        = some { roomCode := none, role := none }) ∧
    mget (cleanupSocket st c).1.rooms rc = none ∧
    cleanupSocket (cleanupSocket st c).1 c = ((cleanupSocket st c).1, []) := by
  have hres : cleanupSocket st c =
      ({ rooms := mdel st.rooms rc,
         sockets := mdel (closeParticipants st.sockets room.participants).1 c },
       (closeParticipants st.sockets room.participants).2) := by
    unfold cleanupSocket
    rw [he]
    dsimp only
    rw [hrc]
    dsimp only
    rw [if_neg hne, hroom]
    dsimp only
    rw [if_pos hadmin]
  rw [hres]
  refine ⟨?_, ?_, ?_, ?_⟩
  · exact closeParticipants_msgs _ _ hreg
  · intro p hp hpc
    show mget (mdel (closeParticipants st.sockets room.participants).1 c) p = _
    rw [mget_mdel, if_neg (fun hh => hpc hh.symm), closeParticipants_get,
      if_pos hp]
    obtain ⟨e0, he0⟩ := Option.isSome_iff_exists.mp (hreg p hp)
    rw [he0]
    rfl
  · show mget (mdel st.rooms rc) rc = none
    exact mget_mdel_self _ _
  · exact cleanupSocket_unregistered _ _ (mget_mdel_self _ _)

/-- Witness for C1: admin `"A"` of room `"R"` with one viewer `"B"`
disconnects; `"B"` gets `room_closed` and is detached, the room is gone,
and a second cleanup for `"A"` does nothing. -/
theorem admin_cleanup_total_idempotent_witness :
    (cleanupSocket
        { rooms := [("R", { adminId := "A", participants := ["B"] })],
          sockets := [("A", { roomCode := some "R", role := some Role.admin }),
                      ("B", { roomCode := some "R", role := some Role.viewer })] }
        "A").2
      = (["B"].map (fun p => (p, OutMsg.room_closed))) ∧
    (∀ p ∈ (["B"] : List String), p ≠ "A" →
      mget (cleanupSocket
        { rooms := [("R", { adminId := "A", participants := ["B"] })],
          sockets := [("A", { roomCode := some "R", role := some Role.admin }),
                      ("B", { roomCode := some "R", role := some Role.viewer })] }
        "A").1.sockets p = some { roomCode := none, role := none }) ∧
    mget (cleanupSocket
        { rooms := [("R", { adminId := "A", participants := ["B"] })],
          sockets := [("A", { roomCode := some "R", role := some Role.admin }),
                      ("B", { roomCode := some "R", role := some Role.viewer })] }
        "A").1.rooms "R" = none ∧
    cleanupSocket (cleanupSocket
        { rooms := [("R", { adminId := "A", participants := ["B"] })],
          sockets := [("A", { roomCode := some "R", role := some Role.admin }),
                      ("B", { roomCode := some "R", role := some Role.viewer })] }
        "A").1 "A"
      = ((cleanupSocket
        { rooms := [("R", { adminId := "A", participants := ["B"] })],
          sockets := [("A", { roomCode := some "R", role := some Role.admin }),
                      ("B", { roomCode := some "R", role := some Role.viewer })] }
        "A").1, []) :=
  admin_cleanup_total_idempotent _ "A"
    { roomCode := some "R", role := some Role.admin } "R"
    { adminId := "A", participants := ["B"] }
    rfl rfl (by decide) rfl rfl (by decide)

/-- C5: a `join_room` whose code normalizes (trim, upper-case) to an
existing room's code adds the requester to that room's participant set,
sets its entry to viewer of that room, sends `room_joined` with the
normalized code to the requester, and sends `viewer_joined` to the room's
admin.  The hypotheses `hne` and `hadm` record that real room codes are
nonempty and that the room's admin is a registered connection (so the
notification delivers). -/
theorem join_room_success (st : ServerState) (c : String) (e : SocketEntry)
    (payload : Json) (code : String) (room : Room)
    (he : mget st.sockets c = some e)
    (hn : normRoomCode payload = Except.ok code)
    (hne : code ≠ "")
    (hroom : mget st.rooms code = some room)
    (hadm : (mget st.sockets room.adminId).isSome = true) :
    handleJoinRoom st c payload =
      Except.ok
        ({ rooms := mset st.rooms code
             { adminId := room.adminId,
               participants := setAdd room.participants c },
           sockets := mset st.sockets c
             { roomCode := some code, role := some Role.viewer } },
         [(c, OutMsg.room_joined code),
          (room.adminId, OutMsg.viewer_joined c)]) := by
  unfold handleJoinRoom
  rw [he]
  dsimp only
  rw [hn]
  dsimp only
  rw [if_neg hne, hroom]
  dsimp only
  have h1 : mget (mset st.sockets c
      { roomCode := some code, role := some Role.viewer }) c
      = some { roomCode := some code, role := some Role.viewer } :=
    mget_mset_self _ _ _
  have h2 : ∃ ea, mget (mset st.sockets c
      { roomCode := some code, role := some Role.viewer }) room.adminId
      = some ea := by
    by_cases hac : c = room.adminId
    · exact ⟨_, by rw [← hac, mget_mset_self]⟩
    · rw [mget_mset_ne _ _ _ _ hac]
      exact Option.isSome_iff_exists.mp hadm
  obtain ⟨ea, hea⟩ := h2
  simp [sendToSocket, sendToSockets, h1, hea]

/-- Witness for C5: connection `"B"` joins room `"AB12"` using the
denormalized code `"  ab12 "`; the code is normalized, `"B"` becomes a
viewer and participant, and both notifications are produced. -/
theorem join_room_success_witness :
    handleJoinRoom
        { rooms := [("AB12", { adminId := "A", participants := [] })],
          sockets := [("A", { roomCode := some "AB12", role := some Role.admin }),
                      ("B", { roomCode := none, role := none })] }
        "B" (Json.obj [("roomCode", Json.str "  ab12 ")]) =
      Except.ok
        ({ rooms := mset [("AB12", { adminId := "A", participants := [] })] "AB12"
             { adminId := "A", participants := setAdd [] "B" },
           sockets := mset
             [("A", { roomCode := some "AB12", role := some Role.admin }),
              ("B", { roomCode := none, role := none })] "B"
             { roomCode := some "AB12", role := some Role.viewer } },
         [("B", OutMsg.room_joined "AB12"), ("A", OutMsg.viewer_joined "B")]) :=
  join_room_success _ "B" { roomCode := none, role := none } _ "AB12"
    { adminId := "A", participants := [] } rfl rfl (by decide) rfl rfl

/-- C2 as the spec states it: whenever the sender is a registered admin of
an existing room and the supplied `viewerId` is a participant of it, some
`receive_offer` is delivered to `viewerId`. -/
def sendOfferClaimedBehavior : Prop :=
  ∀ (st : ServerState) (c : String) (payload : Json) (e : SocketEntry)
    (rc : String) (room : Room) (vid : String),
    mget st.sockets c = some e → e.role = some Role.admin →
    e.roomCode = some rc → mget st.rooms rc = some room →
    objGet payload "viewerId" = some (Json.str vid) →
    vid ∈ room.participants →
    ∃ offer, handleOffer st c payload =
      (st, [(vid, OutMsg.receive_offer offer c)])

/-- Counterexample to C2 as stated: an admin of an existing room sends
`send_offer` naming a genuine participant but with the `offer` field
missing; the handler produces zero outbound messages, not one. -/
theorem send_offer_claim_counterexample : ¬ sendOfferClaimedBehavior := by
  intro h
  obtain ⟨offer, hof⟩ := h
    { rooms := [("R", { adminId := "A", participants := ["B"] })],
      sockets := [("A", { roomCode := some "R", role := some Role.admin }),
                  ("B", { roomCode := some "R", role := some Role.viewer })] }
    "A" (Json.obj [("viewerId", Json.str "B")])
    { roomCode := some "R", role := some Role.admin } "R"
    { adminId := "A", participants := ["B"] } "B"
    rfl rfl rfl rfl rfl (by decide)
  rw [show handleOffer
      { rooms := [("R", { adminId := "A", participants := ["B"] })],
        sockets := [("A", { roomCode := some "R", role := some Role.admin }),
                    ("B", { roomCode := some "R", role := some Role.viewer })] }
      "A" (Json.obj [("viewerId", Json.str "B")])
      = ({ rooms := [("R", { adminId := "A", participants := ["B"] })],
           sockets := [("A", { roomCode := some "R", role := some Role.admin }),
                       ("B", { roomCode := some "R", role := some Role.viewer })] },
         []) from rfl] at hof
  injection hof with h1 h2
  exact List.noConfusion h2

/-- C2 amended: a `send_offer` either produces zero outbound messages and
no state change, or all of the gates held — the sender is a registered
admin, its room exists, both payload fields are present and truthy, and the
supplied `viewerId` is a string naming a current participant — and the
output is exactly one `receive_offer{offer, adminId: sender}` send attempt
to `viewerId`; when `viewerId` is a registered connection that attempt is
exactly the one delivered message. -/
theorem send_offer_amended (st : ServerState) (c : String) (payload : Json) :
    handleOffer st c payload = (st, []) ∨
    ∃ e rc room vid offer,
      mget st.sockets c = some e ∧ e.role = some Role.admin ∧
      e.roomCode = some rc ∧ mget st.rooms rc = some room ∧
      objGet payload "viewerId" = some (Json.str vid) ∧
      truthy (Json.str vid) = true ∧
      objGet payload "offer" = some offer ∧ truthy offer = true ∧
      vid ∈ room.participants ∧
      handleOffer st c payload =
        (st, sendToSocket st vid (OutMsg.receive_offer offer c)) ∧
      (∀ ev, mget st.sockets vid = some ev →
        handleOffer st c payload =
          (st, [(vid, OutMsg.receive_offer offer c)])) := by
  unfold handleOffer
  rcases hs : mget st.sockets c with _ | e
  · left; rfl
  · dsimp only
    by_cases hrole : e.role ≠ some Role.admin
    · rw [if_pos hrole]
      left; rfl
    · rw [if_neg hrole]
      rcases hov : objGet payload "viewerId" with _ | v
      · left
        simp [truthy]
      · rcases hoo : objGet payload "offer" with _ | off
        · left
          simp [truthy]
        · simp only [Option.getD_some]
          cases htv : truthy v
          · left
            simp [htv]
          · cases hto : truthy off
            · left
              simp [hto]
            · rw [if_neg (by simp [htv, hto])]
              rcases hrc : e.roomCode with _ | rc
              · left; rfl
              · dsimp only
                rcases hroom : mget st.rooms rc with _ | room
                · left; rfl
                · dsimp only
                  cases v with
                  | null => left; rfl
                  | bool b => left; rfl
                  | num n => left; rfl
                  | arr es => left; rfl
                  | obj fs => left; rfl
                  | str s =>
                    dsimp only
                    by_cases hmem : s ∈ room.participants
                    · rw [if_pos hmem]
                      right
                      exact ⟨e, rc, room, s, off, rfl, not_not.mp hrole, hrc,
                        hroom, rfl, htv, rfl, hto, hmem, rfl,
                        fun ev hev => congrArg (Prod.mk st)
                          (sendToSockets_registered st.sockets s ev _ hev)⟩
                    · rw [if_neg hmem]
                      left; rfl

/-- C7 as the spec states it: for every connection whose role is viewer of
an existing room, cleanup removes it from that room's participant set and
from the registry, and changes nothing else — the room still exists with
the same admin, other rooms and other connections are untouched, and no
message is sent. -/
def viewerCleanupClaimedBehavior : Prop :=
  ∀ (st : ServerState) (c : String) (e : SocketEntry) (rc : String)
    (room : Room),
    mget st.sockets c = some e → e.role = some Role.viewer →
    e.roomCode = some rc → mget st.rooms rc = some room →
    mget (cleanupSocket st c).1.rooms rc =
      some { adminId := room.adminId,
             participants := setDel room.participants c } ∧
    mget (cleanupSocket st c).1.sockets c = none ∧
    (∀ rc2, rc2 ≠ rc →
      mget (cleanupSocket st c).1.rooms rc2 = mget st.rooms rc2) ∧
    (∀ c2, c2 ≠ c →
      mget (cleanupSocket st c).1.sockets c2 = mget st.sockets c2) ∧
    (cleanupSocket st c).2 = []

/-- Intermediate state for the C7 counterexample: `"A"` has connected and
created room `"R1"`. -/
def c7Mid : ServerState :=
  (handleCreateRoom (connectSocket initialState "A").1 "A" "R1").1

/-- The C7 counterexample state, reached by `"A"` connecting, creating room
`"R1"`, and then joining its own room: `"A"`'s role is viewer, yet `"A"` is
still the room's `adminId`. -/
def c7State : ServerState :=
  { rooms := [("R1", { adminId := "A", participants := ["A"] })],
    sockets := [("A", { roomCode := some "R1", role := some Role.viewer })] }

/-- Counterexample to C7 as stated: cleanup branches on `adminId`, not on
`role`.  In the reachable state where the room creator joined its own room
(role viewer, still adminId), its disconnect tears the room down instead of
only leaving the participant set. -/
theorem viewer_cleanup_claim_counterexample :
    Reachable c7State ∧ ¬ viewerCleanupClaimedBehavior := by
  constructor
  · exact Reachable.join c7Mid c7State "A"
      (Json.obj [("roomCode", Json.str "R1")])
      [("A", OutMsg.room_joined "R1"), ("A", OutMsg.viewer_joined "A")]
      (Reachable.create (connectSocket initialState "A").1 "A" "R1"
        (Reachable.connect initialState "A" Reachable.init)) rfl
  · intro h
    have h1 := (h c7State "A"
      { roomCode := some "R1", role := some Role.viewer } "R1"
      { adminId := "A", participants := ["A"] } rfl rfl rfl rfl).1
    rw [show mget (cleanupSocket c7State "A").1.rooms "R1" = none from rfl] at h1
    exact Option.noConfusion h1

/-- C7 amended: for every connection whose role is viewer of an existing
room and whose id is not that room's `adminId`, cleanup removes it from the
room's participant set and from the registry and changes nothing else: the
room keeps its admin, every other room and every other connection are
unchanged, and no message is sent.  (`hne` records that real room codes are
nonempty.) -/
theorem viewer_cleanup_frame (st : ServerState) (c : String) (e : SocketEntry)
    (rc : String) (room : Room)
    (he : mget st.sockets c = some e) (hrole : e.role = some Role.viewer)
    (hrc : e.roomCode = some rc) (hne : rc ≠ "")
    (hroom : mget st.rooms rc = some room) (hnadmin : room.adminId ≠ c) :
    mget (cleanupSocket st c).1.rooms rc =
      some { adminId := room.adminId,
             participants := setDel room.participants c } ∧
    mget (cleanupSocket st c).1.sockets c = none ∧
    (∀ rc2, rc2 ≠ rc →
      mget (cleanupSocket st c).1.rooms rc2 = mget st.rooms rc2) ∧
    (∀ c2, c2 ≠ c →
      mget (cleanupSocket st c).1.sockets c2 = mget st.sockets c2) ∧
    (cleanupSocket st c).2 = [] := by
  have hres : cleanupSocket st c =
      ({ rooms := mset st.rooms rc
           { adminId := room.adminId,
             participants := setDel room.participants c },
         sockets := mdel st.sockets c }, []) := by
    unfold cleanupSocket
    rw [he]
    dsimp only
    rw [hrc]
    dsimp only
    rw [if_neg hne, hroom]
    dsimp only
    rw [if_neg hnadmin]
  rw [hres]
  refine ⟨mget_mset_self _ _ _, mget_mdel_self _ _, ?_, ?_, rfl⟩
  · intro rc2 h2
    exact mget_mset_ne _ _ _ _ (fun hh => h2 hh.symm)
  · intro c2 h2
    exact mget_mdel_ne _ _ _ (fun hh => h2 hh.symm)

/-- Witness for the amended C7: viewer `"B"` of room `"R"` disconnects; the
room survives with admin `"A"` and an emptied participant set, everything
else untouched, no message. -/
theorem viewer_cleanup_frame_witness :
    mget (cleanupSocket
        { rooms := [("R", { adminId := "A", participants := ["B"] })],
          sockets := [("A", { roomCode := some "R", role := some Role.admin }),
                      ("B", { roomCode := some "R", role := some Role.viewer })] }
        "B").1.rooms "R"
      = some { adminId := "A", participants := setDel ["B"] "B" } ∧
    mget (cleanupSocket
        { rooms := [("R", { adminId := "A", participants := ["B"] })],
          sockets := [("A", { roomCode := some "R", role := some Role.admin }),
                      ("B", { roomCode := some "R", role := some Role.viewer })] }
        "B").1.sockets "B" = none ∧
    (∀ rc2, rc2 ≠ "R" →
      mget (cleanupSocket
        { rooms := [("R", { adminId := "A", participants := ["B"] })],
          sockets := [("A", { roomCode := some "R", role := some Role.admin }),
                      ("B", { roomCode := some "R", role := some Role.viewer })] }
        "B").1.rooms rc2
      = mget [("R", { adminId := "A", participants := ["B"] })] rc2) ∧
    (∀ c2, c2 ≠ "B" →
      mget (cleanupSocket
        { rooms := [("R", { adminId := "A", participants := ["B"] })],
          sockets := [("A", { roomCode := some "R", role := some Role.admin }),
                      ("B", { roomCode := some "R", role := some Role.viewer })] }
        "B").1.sockets c2
      = mget [("A", { roomCode := some "R", role := some Role.admin }),
              ("B", { roomCode := some "R", role := some Role.viewer })] c2) ∧
    (cleanupSocket
        { rooms := [("R", { adminId := "A", participants := ["B"] })],
          sockets := [("A", { roomCode := some "R", role := some Role.admin }),
                      ("B", { roomCode := some "R", role := some Role.viewer })] }
        "B").2 = [] :=
  viewer_cleanup_frame _ "B" { roomCode := some "R", role := some Role.viewer }
    "R" { adminId := "A", participants := ["B"] }
    rfl rfl rfl (by decide) rfl (by decide)

/-- States of the C8 counterexample trace (each is the result of the
preceding handler application, so the trace is reachable by construction). -/
def c8StA : ServerState := (connectSocket initialState "A").1

/-- After `"A"` creates room `"R1"`. -/
def c8StB : ServerState := (handleCreateRoom c8StA "A" "R1").1

/-- After `"B"` connects. -/
def c8StC : ServerState := (connectSocket c8StB "B").1

/-- After `"B"` joins `"R1"`. -/
def c8StD : ServerState :=
  { rooms := [("R1", { adminId := "A", participants := ["B"] })],
    sockets := [("A", { roomCode := some "R1", role := some Role.admin }),
                ("B", { roomCode := some "R1", role := some Role.viewer })] }

/-- After `"C"` connects and creates room `"R2"`. -/
def c8StE : ServerState :=
  (handleCreateRoom (connectSocket c8StD "C").1 "C" "R2").1

/-- After `"B"` — still a participant of `"R1"` — joins `"R2"`. -/
def c8StF : ServerState :=
  { rooms := [("R1", { adminId := "A", participants := ["B"] }),
              ("R2", { adminId := "C", participants := ["B"] })],
    sockets := [("A", { roomCode := some "R1", role := some Role.admin }),
                ("B", { roomCode := some "R2", role := some Role.viewer }),
                ("C", { roomCode := some "R2", role := some Role.admin })] }

/-- Counterexample to C8 as stated: in the reachable state where viewer
`"B"` of room `"R1"` joined a second room `"R2"`, `"B"` is still in
`"R1"`'s participant set while its room field refers to `"R2"`, so a
participant IS simultaneously assigned elsewhere. -/
theorem room_invariant_claim_counterexample :
    Reachable c8StF ∧ ¬ roomInvariantClaimed c8StF := by
  constructor
  · refine Reachable.join c8StE c8StF "B"
      (Json.obj [("roomCode", Json.str "R2")])
      [("B", OutMsg.room_joined "R2"), ("C", OutMsg.viewer_joined "B")] ?_ rfl
    refine Reachable.create (connectSocket c8StD "C").1 "C" "R2"
      (Reachable.connect c8StD "C" ?_)
    exact Reachable.join c8StC c8StD "B"
      (Json.obj [("roomCode", Json.str "R1")])
      [("B", OutMsg.room_joined "R1"), ("A", OutMsg.viewer_joined "B")]
      (Reachable.connect c8StB "B"
        (Reachable.create c8StA "A" "R1"
          (Reachable.connect initialState "A" Reachable.init))) rfl
  · intro h
    obtain ⟨e, he, hrole, hrc⟩ :=
      h "R1" { adminId := "A", participants := ["B"] } rfl "B" (by decide)
    rw [show mget c8StF.sockets "B"
        = some { roomCode := some "R2", role := some Role.viewer } from rfl] at he
    injection he with he2
    subst he2
    exact absurd hrc (by decide)

/-- C8 amended: in every reachable state, room codes are unique keys (each
maps to exactly one adminId), and every participant of an existing room
that is currently registered and whose room field refers back to that room
has role viewer.  Stale participant entries — ids that disconnected or
moved to another room — can remain in a participant set, which is exactly
what the counterexample exhibits. -/
theorem room_registry_invariant (st : ServerState) (h : Reachable st) :
    keysNodup st.rooms ∧ roomInvariantHolds st :=
  reachable_goodState st h

/-- Witness for the amended C8 at a concrete reachable state. -/
theorem room_registry_invariant_witness :
    Reachable (handleCreateRoom (connectSocket initialState "A").1 "A" "R").1 ∧
    (keysNodup (handleCreateRoom (connectSocket initialState "A").1 "A" "R").1.rooms ∧
     roomInvariantHolds (handleCreateRoom (connectSocket initialState "A").1 "A" "R").1) :=
  ⟨Reachable.create (connectSocket initialState "A").1 "A" "R"
      (Reachable.connect initialState "A" Reachable.init),
   room_registry_invariant _
     (Reachable.create (connectSocket initialState "A").1 "A" "R"
       (Reachable.connect initialState "A" Reachable.init))⟩

end ScreenShare
